import Mathlib

/-!
Verification development for the FM-SYNTH repository core.

The C++ classes Oscillator, ADSREnvelope and FMSynth (src/synth/oscillator.h,
src/synth/envelope.h, src/synth/fm_synth.h, duplicated inline in
src/fm_synth_gui.cpp) and the voice pool of src/fm_synth_gui.cpp are embedded
shallowly: each class becomes a structure, each member function a state-passing
function.  C++ doubles are modelled as exact reals; std::sin is kept abstract
as a parameter s : ℝ → ℝ (instantiated with Real.sin where a concrete sine is
needed); std::atomic fields are modelled as plain values (the single-threaded
semantics of one audio callback).
-/

set_option autoImplicit false

noncomputable section

namespace FMSYNTH

/-- Source constant TWO_PI (the double literal 6.28318530717958647692, the
closest double to 2*pi; modelled as the exact real 2*pi). -/
def TWO_PI : ℝ := 2 * Real.pi

/-- Source constant SAMPLE_RATE = 44100.0 (src/fm_synth_gui.cpp). -/
def SAMPLE_RATE : ℝ := 44100

/-- Source constant NUM_VOICES = 6 (src/fm_synth_gui.cpp). -/
def NUM_VOICES : ℕ := 6

/-- Class Oscillator: fields phase, phaseIncrement, frequency, sampleRate. -/
structure Oscillator where
  phase : ℝ
  phaseIncrement : ℝ
  frequency : ℝ
  sampleRate : ℝ

/-- Constructor Oscillator(freq, sr): phase = 0, then updatePhaseIncrement()
sets phaseIncrement = TWO_PI * frequency / sampleRate. -/
def mkOscillator (freq sr : ℝ) : Oscillator :=
  { phase := 0, phaseIncrement := TWO_PI * freq / sr, frequency := freq, sampleRate := sr }

/-- Oscillator::setFrequency(freq): store frequency, updatePhaseIncrement(). -/
def Oscillator.setFrequency (o : Oscillator) (freq : ℝ) : Oscillator :=
  { o with frequency := freq, phaseIncrement := TWO_PI * freq / o.sampleRate }

/-- Oscillator::process(modulation): output = sin(phase + modulation), then
phase += phaseIncrement, subtracting TWO_PI once if phase >= TWO_PI.
The parameter s stands for std::sin. -/
def Oscillator.process (o : Oscillator) (s : ℝ → ℝ) (modulation : ℝ) : ℝ × Oscillator :=
  let output := s (o.phase + modulation)
  let p := o.phase + o.phaseIncrement
  (output, { o with phase := if p ≥ TWO_PI then p - TWO_PI else p })

/-- Oscillator::reset(): phase = 0. -/
def Oscillator.reset (o : Oscillator) : Oscillator :=
  { o with phase := 0 }

/-- n successive Oscillator::process calls, the k-th with modulation ms k. -/
def Oscillator.iterate (o : Oscillator) (s : ℝ → ℝ) (ms : ℕ → ℝ) : ℕ → Oscillator
  | 0 => o
  | n + 1 => ((o.iterate s ms n).process s (ms n)).2

lemma two_pi_pos : 0 < TWO_PI := by
  have h := Real.pi_pos
  rw [TWO_PI]
  linarith

lemma oscillator_process_phaseIncrement (o : Oscillator) (s : ℝ → ℝ) (m : ℝ) :
    (o.process s m).2.phaseIncrement = o.phaseIncrement := rfl

lemma oscillator_process_phase (o : Oscillator) (s : ℝ → ℝ) (m : ℝ)
    (h0 : 0 ≤ o.phase) (h1 : o.phase < TWO_PI)
    (hi0 : 0 < o.phaseIncrement) (hi1 : o.phaseIncrement ≤ TWO_PI) :
    0 ≤ (o.process s m).2.phase ∧ (o.process s m).2.phase < TWO_PI := by
  simp only [Oscillator.process]
  by_cases h : o.phase + o.phaseIncrement ≥ TWO_PI
  · rw [if_pos h]
    constructor
    · linarith
    · linarith
  · rw [if_neg h]
    push_neg at h
    constructor
    · linarith
    · linarith

lemma oscillator_iterate_spec (o : Oscillator) (s : ℝ → ℝ) (ms : ℕ → ℝ)
    (h0 : 0 ≤ o.phase) (h1 : o.phase < TWO_PI)
    (hi0 : 0 < o.phaseIncrement) (hi1 : o.phaseIncrement ≤ TWO_PI) (n : ℕ) :
    (o.iterate s ms n).phaseIncrement = o.phaseIncrement ∧
      0 ≤ (o.iterate s ms n).phase ∧ (o.iterate s ms n).phase < TWO_PI := by
  induction n with
  | zero => exact ⟨rfl, h0, h1⟩
  | succ n ih =>
    obtain ⟨hinc, hp0, hp1⟩ := ih
    refine ⟨?_, ?_⟩
    · rw [Oscillator.iterate, oscillator_process_phaseIncrement, hinc]
    · rw [Oscillator.iterate]
      exact oscillator_process_phase _ s (ms n) hp0 hp1 (hinc ▸ hi0) (hinc ▸ hi1)

/-- C4 (corrected): for 0 < f ≤ sr, after every Oscillator::process call the
phase lies in [0, TWO_PI), and the returned sample is s(phase_before +
modulation) where phase_before is the phase before that call.  (The claim's
quantification over all f > 0 fails; see the counterexample.) -/
theorem C4_oscillator_phase_range_and_output (f sr : ℝ) (hf : 0 < f) (hfs : f ≤ sr)
    (s : ℝ → ℝ) (ms : ℕ → ℝ) (n : ℕ) :
    0 ≤ ((mkOscillator f sr).iterate s ms n).phase ∧
      ((mkOscillator f sr).iterate s ms n).phase < TWO_PI ∧
      (((mkOscillator f sr).iterate s ms n).process s (ms n)).1
        = s (((mkOscillator f sr).iterate s ms n).phase + ms n) := by
  have hsr : 0 < sr := lt_of_lt_of_le hf hfs
  have hinc0 : 0 < TWO_PI * f / sr := by
    apply div_pos (mul_pos two_pi_pos hf) hsr
  have hinc1 : TWO_PI * f / sr ≤ TWO_PI := by
    rw [div_le_iff₀ hsr]
    have := two_pi_pos
    nlinarith
  have hbase0 : (0:ℝ) ≤ (mkOscillator f sr).phase := le_refl 0
  have hbase1 : (mkOscillator f sr).phase < TWO_PI := two_pi_pos
  have h := oscillator_iterate_spec (mkOscillator f sr) s ms hbase0 hbase1 hinc0 hinc1 n
  exact ⟨h.2.1, h.2.2, rfl⟩

/-- Witness for C4: instantiation at f = 1, sr = 2, one process call. -/
theorem C4_oscillator_witness :
    (0:ℝ) < 1 ∧ (1:ℝ) ≤ 2 ∧
      (0 ≤ ((mkOscillator 1 2).iterate Real.sin (fun _ => 0) 1).phase ∧
        ((mkOscillator 1 2).iterate Real.sin (fun _ => 0) 1).phase < TWO_PI ∧
        (((mkOscillator 1 2).iterate Real.sin (fun _ => 0) 1).process Real.sin
            ((fun _ => (0:ℝ)) 1)).1
          = Real.sin (((mkOscillator 1 2).iterate Real.sin (fun _ => 0) 1).phase
              + (fun _ => (0:ℝ)) 1)) :=
  ⟨by norm_num, by norm_num,
    C4_oscillator_phase_range_and_output 1 2 (by norm_num) (by norm_num)
      Real.sin (fun _ => 0) 1⟩

/-- Counterexample to C4 as stated: with f = 3 and sr = 2 (both positive,
so allowed by the claim), after two process calls the phase equals TWO_PI,
which is outside [0, TWO_PI): the wrap subtracts TWO_PI only once. -/
theorem C4_counterexample :
    (0:ℝ) < 3 ∧ (0:ℝ) < 2 ∧
      ¬ ((((mkOscillator 3 2).process Real.sin 0).2.process Real.sin 0).2.phase < TWO_PI) := by
  have hpi := Real.pi_pos
  refine ⟨by norm_num, by norm_num, ?_⟩
  simp only [mkOscillator, Oscillator.process, TWO_PI]
  norm_num
  split_ifs with h1 h2 h2
  · linarith
  · exfalso
    apply h2
    linarith
  · exfalso
    apply h1
    linarith
  · exfalso
    apply h1
    linarith

/-- Enum EnvelopeState of src/synth/envelope.h. -/
inductive EnvelopeState where
  | ENV_IDLE
  | ENV_ATTACK
  | ENV_DECAY
  | ENV_SUSTAIN
  | ENV_RELEASE
deriving DecidableEq

export EnvelopeState (ENV_IDLE ENV_ATTACK ENV_DECAY ENV_SUSTAIN ENV_RELEASE)

/-- Class ADSREnvelope. -/
structure ADSREnvelope where
  attackTime : ℝ
  decayTime : ℝ
  sustainLevel : ℝ
  releaseTime : ℝ
  state : EnvelopeState
  currentLevel : ℝ
  sampleRate : ℝ
  attackIncrement : ℝ
  decayIncrement : ℝ
  releaseIncrement : ℝ
  releaseStartLevel : ℝ

/-- ADSREnvelope::updateIncrements(). -/
def ADSREnvelope.updateIncrements (e : ADSREnvelope) : ADSREnvelope :=
  { e with
    attackIncrement := 1 / (e.attackTime * e.sampleRate)
    decayIncrement := (1 - e.sustainLevel) / (e.decayTime * e.sampleRate) }

/-- Constructor ADSREnvelope(sr).  In the C++ source releaseIncrement is left
uninitialised by the constructor; it is only read in state ENV_RELEASE, which
is reachable only through noteOff() (which assigns it), so we model the
initial value as 0. -/
def mkADSREnvelope (sr : ℝ) : ADSREnvelope :=
  ADSREnvelope.updateIncrements
    { attackTime := 0.01, decayTime := 0.1, sustainLevel := 0.7, releaseTime := 0.3,
      state := ENV_IDLE, currentLevel := 0, sampleRate := sr,
      attackIncrement := 0, decayIncrement := 0, releaseIncrement := 0,
      releaseStartLevel := 0 }

/-- ADSREnvelope::noteOn(): state = ENV_ATTACK. -/
def ADSREnvelope.noteOn (e : ADSREnvelope) : ADSREnvelope :=
  { e with state := ENV_ATTACK }

/-- ADSREnvelope::noteOff(): in any non-idle state, releaseStartLevel =
currentLevel, releaseIncrement = releaseTime > 0 ? releaseStartLevel /
(releaseTime * sampleRate) : releaseStartLevel, state = ENV_RELEASE. -/
def ADSREnvelope.noteOff (e : ADSREnvelope) : ADSREnvelope :=
  if e.state ≠ ENV_IDLE then
    { e with
      releaseStartLevel := e.currentLevel
      releaseIncrement :=
        if e.releaseTime > 0 then e.currentLevel / (e.releaseTime * e.sampleRate)
        else e.currentLevel
      state := ENV_RELEASE }
  else e

/-- ADSREnvelope::process(): one step of the ADSR state machine, returning the
new currentLevel together with the updated envelope. -/
def ADSREnvelope.process (e : ADSREnvelope) : ℝ × ADSREnvelope :=
  match e.state with
  | ENV_IDLE => (0, { e with currentLevel := 0 })
  | ENV_ATTACK =>
      let l := e.currentLevel + e.attackIncrement
      if l ≥ 1 then (1, { e with currentLevel := 1, state := ENV_DECAY })
      else (l, { e with currentLevel := l })
  | ENV_DECAY =>
      let l := e.currentLevel - e.decayIncrement
      if l ≤ e.sustainLevel then
        (e.sustainLevel, { e with currentLevel := e.sustainLevel, state := ENV_SUSTAIN })
      else (l, { e with currentLevel := l })
  | ENV_SUSTAIN => (e.sustainLevel, { e with currentLevel := e.sustainLevel })
  | ENV_RELEASE =>
      let l := e.currentLevel - e.releaseIncrement
      if l ≤ 0 then (0, { e with currentLevel := 0, state := ENV_IDLE })
      else (l, { e with currentLevel := l })

/-- ADSREnvelope::isActive(): state != ENV_IDLE. -/
def ADSREnvelope.isActive (e : ADSREnvelope) : Bool :=
  decide (e.state ≠ ENV_IDLE)

/-- ADSREnvelope::setAttack(seconds): attackTime = max(0.001, seconds), then
updateIncrements(). -/
def ADSREnvelope.setAttack (e : ADSREnvelope) (seconds : ℝ) : ADSREnvelope :=
  ADSREnvelope.updateIncrements { e with attackTime := max 0.001 seconds }

/-- ADSREnvelope::setDecay(seconds). -/
def ADSREnvelope.setDecay (e : ADSREnvelope) (seconds : ℝ) : ADSREnvelope :=
  ADSREnvelope.updateIncrements { e with decayTime := max 0.001 seconds }

/-- ADSREnvelope::setSustain(level): sustainLevel = max(0.0, min(1.0, level)),
then updateIncrements(). -/
def ADSREnvelope.setSustain (e : ADSREnvelope) (level : ℝ) : ADSREnvelope :=
  ADSREnvelope.updateIncrements { e with sustainLevel := max 0 (min 1 level) }

/-- ADSREnvelope::setRelease(seconds). -/
def ADSREnvelope.setRelease (e : ADSREnvelope) (seconds : ℝ) : ADSREnvelope :=
  ADSREnvelope.updateIncrements { e with releaseTime := max 0.001 seconds }

/-- n successive ADSREnvelope::process() calls (state part). -/
def ADSREnvelope.iterate (e : ADSREnvelope) : ℕ → ADSREnvelope
  | 0 => e
  | n + 1 => (e.iterate n).process.2

/-- Helper for C3: every state of the release run, characterised.  After k
process() calls from a releasing envelope with level L and increment R,
either the envelope has reached (ENV_IDLE, 0), or it is still in ENV_RELEASE
with level L - k * R (positive unless k = 0) and unchanged increment. -/
lemma release_run (e : ADSREnvelope) (hst : e.state = ENV_RELEASE) (k : ℕ) :
    ((e.iterate k).state = ENV_IDLE ∧ (e.iterate k).currentLevel = 0) ∨
      ((e.iterate k).state = ENV_RELEASE ∧
        (e.iterate k).currentLevel = e.currentLevel - k * e.releaseIncrement ∧
        (k = 0 ∨ 0 < e.currentLevel - k * e.releaseIncrement) ∧
        (e.iterate k).releaseIncrement = e.releaseIncrement) := by
  induction k with
  | zero =>
    right
    refine ⟨hst, by simp [ADSREnvelope.iterate], Or.inl rfl, rfl⟩
  | succ k ih =>
    rw [ADSREnvelope.iterate]
    rcases ih with ⟨hI, hL⟩ | ⟨hS, hlev, _hpos, hinc⟩
    · left
      simp [ADSREnvelope.process, hI, hL]
    · by_cases hstep :
        (e.iterate k).currentLevel - (e.iterate k).releaseIncrement ≤ 0
      · left
        simp [ADSREnvelope.process, hS, hstep]
      · right
        push_neg at hstep
        refine ⟨?_, ?_, ?_, ?_⟩
        · simp [ADSREnvelope.process, hS, not_le.2 hstep]
        · simp only [ADSREnvelope.process, hS]
          rw [if_neg (by linarith)]
          simp only [hlev, hinc]
          push_cast
          ring
        · right
          rw [hlev, hinc] at hstep
          push_cast
          linarith
        · simp only [ADSREnvelope.process, hS]
          rw [if_neg (by linarith)]
          exact hinc

/-- C3 (confirmed): noteOff() in a non-idle state with level L recomputes
releaseIncrement as L / (releaseTime * sampleRate), and any number
n >= releaseTime * sampleRate of subsequent process() calls drives the level
to 0 and the state to ENV_IDLE, regardless of L. -/
theorem C3_noteOff_scaled_release (e : ADSREnvelope) (hst : e.state ≠ ENV_IDLE)
    (hlev : 0 ≤ e.currentLevel) (hrt : 0 < e.releaseTime) (hsr : 0 < e.sampleRate)
    (n : ℕ) (hn : e.releaseTime * e.sampleRate ≤ n) :
    e.noteOff.releaseIncrement = e.currentLevel / (e.releaseTime * e.sampleRate) ∧
      (e.noteOff.iterate n).currentLevel = 0 ∧ (e.noteOff.iterate n).state = ENV_IDLE := by
  have hTsr : 0 < e.releaseTime * e.sampleRate := mul_pos hrt hsr
  have hinc : e.noteOff.releaseIncrement
      = e.currentLevel / (e.releaseTime * e.sampleRate) := by
    simp [ADSREnvelope.noteOff, hst, hrt]
  have hstate : e.noteOff.state = ENV_RELEASE := by
    simp [ADSREnvelope.noteOff, hst]
  have hlevNO : e.noteOff.currentLevel = e.currentLevel := by
    simp [ADSREnvelope.noteOff, hst]
  have hrun := release_run e.noteOff hstate n
  rcases hrun with ⟨hI, hL⟩ | ⟨_, _, hpos, _⟩
  · exact ⟨hinc, hL, hI⟩
  · exfalso
    rcases hpos with h0 | hpos
    · have : (0:ℝ) < (n:ℝ) := lt_of_lt_of_le hTsr hn
      rw [h0] at this
      norm_num at this
    · rw [hlevNO, hinc] at hpos
      have hmul : e.releaseTime * e.sampleRate
            * (e.currentLevel / (e.releaseTime * e.sampleRate))
          ≤ (n:ℝ) * (e.currentLevel / (e.releaseTime * e.sampleRate)) :=
        mul_le_mul_of_nonneg_right hn (div_nonneg hlev (le_of_lt hTsr))
      rw [mul_div_cancel₀ e.currentLevel (ne_of_gt hTsr)] at hmul
      linarith

/-- Witness for C3: a just-triggered envelope (state ENV_ATTACK, level 0) with
releaseTime 0.3 at sample rate 10; after 3 samples the release has ended. -/
theorem C3_witness :
    ((mkADSREnvelope 10).noteOn.state ≠ ENV_IDLE ∧
      0 ≤ (mkADSREnvelope 10).noteOn.currentLevel ∧
      0 < (mkADSREnvelope 10).noteOn.releaseTime ∧
      0 < (mkADSREnvelope 10).noteOn.sampleRate ∧
      (mkADSREnvelope 10).noteOn.releaseTime * (mkADSREnvelope 10).noteOn.sampleRate
        ≤ (3:ℕ)) ∧
      ((mkADSREnvelope 10).noteOn.noteOff.releaseIncrement
          = (mkADSREnvelope 10).noteOn.currentLevel
            / ((mkADSREnvelope 10).noteOn.releaseTime
              * (mkADSREnvelope 10).noteOn.sampleRate) ∧
        ((mkADSREnvelope 10).noteOn.noteOff.iterate 3).currentLevel = 0 ∧
        ((mkADSREnvelope 10).noteOn.noteOff.iterate 3).state = ENV_IDLE) := by
  have h1 : (mkADSREnvelope 10).noteOn.state ≠ ENV_IDLE := by
    simp [mkADSREnvelope, ADSREnvelope.noteOn, ADSREnvelope.updateIncrements]
  have h2 : 0 ≤ (mkADSREnvelope 10).noteOn.currentLevel := by
    simp [mkADSREnvelope, ADSREnvelope.noteOn, ADSREnvelope.updateIncrements]
  have h3 : 0 < (mkADSREnvelope 10).noteOn.releaseTime := by
    norm_num [mkADSREnvelope, ADSREnvelope.noteOn, ADSREnvelope.updateIncrements]
  have h4 : 0 < (mkADSREnvelope 10).noteOn.sampleRate := by
    norm_num [mkADSREnvelope, ADSREnvelope.noteOn, ADSREnvelope.updateIncrements]
  have h5 : (mkADSREnvelope 10).noteOn.releaseTime
      * (mkADSREnvelope 10).noteOn.sampleRate ≤ ((3:ℕ):ℝ) := by
    norm_num [mkADSREnvelope, ADSREnvelope.noteOn, ADSREnvelope.updateIncrements]
  exact ⟨⟨h1, h2, h3, h4, h5⟩,
    C3_noteOff_scaled_release (mkADSREnvelope 10).noteOn h1 h2 h3 h4 3 h5⟩

/-- The operations of the ADSREnvelope control surface, with arbitrary real
arguments for the setters. -/
inductive EnvOp where
  | opNoteOn
  | opNoteOff
  | opProcess
  | opSetAttack (x : ℝ)
  | opSetDecay (x : ℝ)
  | opSetSustain (x : ℝ)
  | opSetRelease (x : ℝ)

/-- Apply one envelope operation. -/
def applyEnvOp (e : ADSREnvelope) : EnvOp → ADSREnvelope
  | EnvOp.opNoteOn => e.noteOn
  | EnvOp.opNoteOff => e.noteOff
  | EnvOp.opProcess => e.process.2
  | EnvOp.opSetAttack x => e.setAttack x
  | EnvOp.opSetDecay x => e.setDecay x
  | EnvOp.opSetSustain x => e.setSustain x
  | EnvOp.opSetRelease x => e.setRelease x

/-- Representation invariant of ADSREnvelope: its level and sustain level stay
in [0,1], stage times and the sample rate stay positive, and all per-sample
increments stay non-negative. -/
def EnvInv (e : ADSREnvelope) : Prop :=
  0 ≤ e.currentLevel ∧ e.currentLevel ≤ 1 ∧
    0 ≤ e.sustainLevel ∧ e.sustainLevel ≤ 1 ∧
    0 < e.attackTime ∧ 0 < e.decayTime ∧ 0 < e.releaseTime ∧ 0 < e.sampleRate ∧
    0 ≤ e.attackIncrement ∧ 0 ≤ e.decayIncrement ∧ 0 ≤ e.releaseIncrement

lemma envInv_mk (sr : ℝ) (hsr : 0 < sr) : EnvInv (mkADSREnvelope sr) := by
  refine ⟨?_, ?_, ?_, ?_, ?_, ?_, ?_, ?_, ?_, ?_, ?_⟩ <;>
    norm_num [mkADSREnvelope, ADSREnvelope.updateIncrements, EnvInv] <;>
    positivity

lemma envInv_updateIncrements (e : ADSREnvelope) (h : EnvInv e) :
    EnvInv e.updateIncrements := by
  obtain ⟨h1, h2, h3, h4, h5, h6, h7, h8, _h9, _h10, h11⟩ := h
  refine ⟨h1, h2, h3, h4, h5, h6, h7, h8, ?_, ?_, h11⟩
  · simp only [ADSREnvelope.updateIncrements]
    positivity
  · simp only [ADSREnvelope.updateIncrements]
    have : 0 ≤ 1 - e.sustainLevel := by linarith
    positivity

lemma envInv_noteOn (e : ADSREnvelope) (h : EnvInv e) : EnvInv e.noteOn := h

lemma envInv_noteOff (e : ADSREnvelope) (h : EnvInv e) : EnvInv e.noteOff := by
  obtain ⟨h1, h2, h3, h4, h5, h6, h7, h8, h9, h10, h11⟩ := h
  by_cases hst : e.state ≠ ENV_IDLE
  · rw [ADSREnvelope.noteOff, if_pos hst]
    refine ⟨h1, h2, h3, h4, h5, h6, h7, h8, h9, h10, ?_⟩
    dsimp only
    by_cases hrt : e.releaseTime > 0
    · rw [if_pos hrt]
      exact div_nonneg h1 (le_of_lt (mul_pos hrt h8))
    · rw [if_neg hrt]
      exact h1
  · rw [ADSREnvelope.noteOff, if_neg hst]
    exact ⟨h1, h2, h3, h4, h5, h6, h7, h8, h9, h10, h11⟩

lemma envInv_process (e : ADSREnvelope) (h : EnvInv e) : EnvInv e.process.2 := by
  obtain ⟨h1, h2, h3, h4, h5, h6, h7, h8, h9, h10, h11⟩ := h
  cases hst : e.state <;>
    simp only [ADSREnvelope.process, hst]
  · exact ⟨le_refl 0, by norm_num, h3, h4, h5, h6, h7, h8, h9, h10, h11⟩
  · by_cases hc : e.currentLevel + e.attackIncrement ≥ 1
    · rw [if_pos hc]
      exact ⟨by norm_num, by norm_num, h3, h4, h5, h6, h7, h8, h9, h10, h11⟩
    · rw [if_neg hc]
      push_neg at hc
      refine ⟨?_, ?_, h3, h4, h5, h6, h7, h8, h9, h10, h11⟩
      · show 0 ≤ e.currentLevel + e.attackIncrement
        linarith
      · show e.currentLevel + e.attackIncrement ≤ 1
        linarith
  · by_cases hc : e.currentLevel - e.decayIncrement ≤ e.sustainLevel
    · rw [if_pos hc]
      exact ⟨h3, h4, h3, h4, h5, h6, h7, h8, h9, h10, h11⟩
    · rw [if_neg hc]
      push_neg at hc
      refine ⟨?_, ?_, h3, h4, h5, h6, h7, h8, h9, h10, h11⟩
      · show 0 ≤ e.currentLevel - e.decayIncrement
        linarith
      · show e.currentLevel - e.decayIncrement ≤ 1
        linarith
  · exact ⟨h3, h4, h3, h4, h5, h6, h7, h8, h9, h10, h11⟩
  · by_cases hc : e.currentLevel - e.releaseIncrement ≤ 0
    · rw [if_pos hc]
      exact ⟨le_refl 0, by norm_num, h3, h4, h5, h6, h7, h8, h9, h10, h11⟩
    · rw [if_neg hc]
      push_neg at hc
      refine ⟨?_, ?_, h3, h4, h5, h6, h7, h8, h9, h10, h11⟩
      · show 0 ≤ e.currentLevel - e.releaseIncrement
        linarith
      · show e.currentLevel - e.releaseIncrement ≤ 1
        linarith

lemma envInv_setAttack (e : ADSREnvelope) (x : ℝ) (h : EnvInv e) :
    EnvInv (e.setAttack x) := by
  obtain ⟨h1, h2, h3, h4, h5, h6, h7, h8, h9, h10, h11⟩ := h
  apply envInv_updateIncrements
  exact ⟨h1, h2, h3, h4, lt_max_of_lt_left (by norm_num), h6, h7, h8, h9, h10, h11⟩

lemma envInv_setDecay (e : ADSREnvelope) (x : ℝ) (h : EnvInv e) :
    EnvInv (e.setDecay x) := by
  obtain ⟨h1, h2, h3, h4, h5, h6, h7, h8, h9, h10, h11⟩ := h
  apply envInv_updateIncrements
  exact ⟨h1, h2, h3, h4, h5, lt_max_of_lt_left (by norm_num), h7, h8, h9, h10, h11⟩

lemma envInv_setSustain (e : ADSREnvelope) (x : ℝ) (h : EnvInv e) :
    EnvInv (e.setSustain x) := by
  obtain ⟨h1, h2, h3, h4, h5, h6, h7, h8, h9, h10, h11⟩ := h
  apply envInv_updateIncrements
  refine ⟨h1, h2, le_max_left 0 _, ?_, h5, h6, h7, h8, h9, h10, h11⟩
  exact max_le (by norm_num) (min_le_left 1 x)

lemma envInv_setRelease (e : ADSREnvelope) (x : ℝ) (h : EnvInv e) :
    EnvInv (e.setRelease x) := by
  obtain ⟨h1, h2, h3, h4, h5, h6, h7, h8, h9, h10, h11⟩ := h
  apply envInv_updateIncrements
  exact ⟨h1, h2, h3, h4, h5, h6, lt_max_of_lt_left (by norm_num), h8, h9, h10, h11⟩

lemma envInv_applyEnvOp (e : ADSREnvelope) (op : EnvOp) (h : EnvInv e) :
    EnvInv (applyEnvOp e op) := by
  cases op
  · exact envInv_noteOn e h
  · exact envInv_noteOff e h
  · exact envInv_process e h
  · exact envInv_setAttack e _ h
  · exact envInv_setDecay e _ h
  · exact envInv_setSustain e _ h
  · exact envInv_setRelease e _ h

lemma envInv_foldl (ops : List EnvOp) (e : ADSREnvelope) (h : EnvInv e) :
    EnvInv (ops.foldl applyEnvOp e) := by
  induction ops generalizing e with
  | nil => exact h
  | cons op ops ih =>
    rw [List.foldl_cons]
    exact ih _ (envInv_applyEnvOp e op h)

/-- C5 (confirmed): for every sequence of envelope operations (noteOn, noteOff,
process, and the four setters with arbitrary real arguments) applied to a
freshly constructed envelope, currentLevel stays in [0, 1]; moreover noteOn in
a non-idle state re-enters ENV_ATTACK keeping the current level (no reset
to 0). -/
theorem C5_envelope_level_invariant (sr : ℝ) (hsr : 0 < sr) (ops : List EnvOp) :
    (0 ≤ (ops.foldl applyEnvOp (mkADSREnvelope sr)).currentLevel ∧
        (ops.foldl applyEnvOp (mkADSREnvelope sr)).currentLevel ≤ 1) ∧
      ∀ e : ADSREnvelope, e.state ≠ ENV_IDLE →
        e.noteOn.state = ENV_ATTACK ∧ e.noteOn.currentLevel = e.currentLevel := by
  have h := envInv_foldl ops (mkADSREnvelope sr) (envInv_mk sr hsr)
  exact ⟨⟨h.1, h.2.1⟩, fun e _ => ⟨rfl, rfl⟩⟩

/-- Witness for C5: the empty sequence at sample rate 1, and a retrigger of a
releasing envelope. -/
theorem C5_witness :
    (0:ℝ) < 1 ∧
      ((0 ≤ (([] : List EnvOp).foldl applyEnvOp (mkADSREnvelope 1)).currentLevel ∧
          (([] : List EnvOp).foldl applyEnvOp (mkADSREnvelope 1)).currentLevel ≤ 1) ∧
        ∀ e : ADSREnvelope, e.state ≠ ENV_IDLE →
          e.noteOn.state = ENV_ATTACK ∧ e.noteOn.currentLevel = e.currentLevel) :=
  ⟨by norm_num, C5_envelope_level_invariant 1 (by norm_num) []⟩

/-- Enum FMAlgorithm (values of the C++ enum, stored in an int field). -/
def ALG_STACK : ℤ := 0

/-- ALG_TWIN = 1. -/
def ALG_TWIN : ℤ := 1

/-- ALG_BRANCH = 2. -/
def ALG_BRANCH : ℤ := 2

/-- ALG_PARALLEL = 3. -/
def ALG_PARALLEL : ℤ := 3

/-- ALG_DUAL_CARRIER = 4. -/
def ALG_DUAL_CARRIER : ℤ := 4

/-- ALG_TRIPLE = 5. -/
def ALG_TRIPLE : ℤ := 5

/-- ALG_COUNT = 6. -/
def ALG_COUNT : ℤ := 6

/-- Class FMSynth (4-operator build of src/synth/fm_synth.h and
src/fm_synth_gui.cpp).  Atomic fields are modelled as plain values. -/
structure FMSynth where
  op1 : Oscillator
  op2 : Oscillator
  op3 : Oscillator
  op4 : Oscillator
  envelope : ADSREnvelope
  ratio1 : ℝ
  ratio2 : ℝ
  ratio3 : ℝ
  ratio4 : ℝ
  index1 : ℝ
  index2 : ℝ
  index3 : ℝ
  index4 : ℝ
  prevSample1 : ℝ
  algorithm : ℤ
  amplitude : ℝ
  noteActive : Bool
  currentFrequency : ℝ
  sampleRate : ℝ

/-- Constructor FMSynth(freq, sr). -/
def mkFMSynth (freq sr : ℝ) : FMSynth :=
  { op1 := mkOscillator freq sr
    op2 := mkOscillator (freq * 2) sr
    op3 := mkOscillator (freq * 3) sr
    op4 := mkOscillator (freq * 4) sr
    envelope := mkADSREnvelope sr
    ratio1 := 1, ratio2 := 2, ratio3 := 3, ratio4 := 4
    index1 := 0, index2 := 2, index3 := 1.5, index4 := 1
    prevSample1 := 0
    algorithm := ALG_STACK
    amplitude := 0.3
    noteActive := false
    currentFrequency := freq
    sampleRate := sr }

/-- FMSynth::process().  Returns the output sample together with the updated
voice.  The parameter s stands for std::sin; the switch on the int algorithm
field is an if-chain over the enum values, defaulting to (0, envelope
advanced) exactly as the C++ switch whose default returns 0.0 after
envelope.process() has already run. -/
def FMSynth.process (y : FMSynth) (s : ℝ → ℝ) : ℝ × FMSynth :=
  if !y.envelope.isActive then (0, y) else
  let idx1 := y.index1
  let idx2 := y.index2
  let idx3 := y.index3
  let idx4 := y.index4
  let feedback := idx1 * y.prevSample1
  let envLevel := y.envelope.process.1
  let env := y.envelope.process.2
  if y.algorithm = ALG_STACK then
    let p4 := y.op4.process s 0
    let p3 := y.op3.process s (idx4 * p4.1)
    let p2 := y.op2.process s (idx3 * p3.1)
    let p1 := y.op1.process s (idx2 * p2.1 + feedback)
    (p1.1 * y.amplitude * envLevel,
      { y with op1 := p1.2, op2 := p2.2, op3 := p3.2, op4 := p4.2,
               envelope := env, prevSample1 := p1.1 })
  else if y.algorithm = ALG_TWIN then
    let p4 := y.op4.process s 0
    let p3 := y.op3.process s (idx4 * p4.1)
    let p2 := y.op2.process s 0
    let p1 := y.op1.process s (idx3 * p3.1 + idx2 * p2.1 + feedback)
    (p1.1 * y.amplitude * envLevel,
      { y with op1 := p1.2, op2 := p2.2, op3 := p3.2, op4 := p4.2,
               envelope := env, prevSample1 := p1.1 })
  else if y.algorithm = ALG_BRANCH then
    let p4 := y.op4.process s 0
    let p3 := y.op3.process s (idx4 * p4.1)
    let p2 := y.op2.process s (idx4 * p4.1)
    let p1 := y.op1.process s (idx3 * p3.1 + idx2 * p2.1 + feedback)
    (p1.1 * y.amplitude * envLevel,
      { y with op1 := p1.2, op2 := p2.2, op3 := p3.2, op4 := p4.2,
               envelope := env, prevSample1 := p1.1 })
  else if y.algorithm = ALG_PARALLEL then
    let p2 := y.op2.process s 0
    let p3 := y.op3.process s 0
    let p4 := y.op4.process s 0
    let p1 := y.op1.process s (idx2 * p2.1 + idx3 * p3.1 + idx4 * p4.1 + feedback)
    (p1.1 * y.amplitude * envLevel,
      { y with op1 := p1.2, op2 := p2.2, op3 := p3.2, op4 := p4.2,
               envelope := env, prevSample1 := p1.1 })
  else if y.algorithm = ALG_DUAL_CARRIER then
    let p4 := y.op4.process s 0
    let p3 := y.op3.process s (idx4 * p4.1)
    let p2 := y.op2.process s 0
    let p1 := y.op1.process s (idx2 * p2.1 + feedback)
    ((p1.1 + p3.1 * 0.7) * y.amplitude * envLevel * 0.7,
      { y with op1 := p1.2, op2 := p2.2, op3 := p3.2, op4 := p4.2,
               envelope := env, prevSample1 := p1.1 })
  else if y.algorithm = ALG_TRIPLE then
    let p4 := y.op4.process s 0
    let p1 := y.op1.process s (idx4 * p4.1 + feedback)
    let p2 := y.op2.process s (idx4 * p4.1)
    let p3 := y.op3.process s (idx4 * p4.1)
    ((p1.1 + p2.1 * 0.6 + p3.1 * 0.4) * y.amplitude * envLevel * 0.5,
      { y with op1 := p1.2, op2 := p2.2, op3 := p3.2, op4 := p4.2,
               envelope := env, prevSample1 := p1.1 })
  else
    (0, { y with envelope := env })

/-- FMSynth::noteOn(freq): retune all four operators to freq * ratio_i, reset
all phases, clear the feedback history, mark the note active and trigger the
envelope. -/
def FMSynth.noteOn (y : FMSynth) (freq : ℝ) : FMSynth :=
  { y with
    currentFrequency := freq
    op1 := (y.op1.setFrequency (freq * y.ratio1)).reset
    op2 := (y.op2.setFrequency (freq * y.ratio2)).reset
    op3 := (y.op3.setFrequency (freq * y.ratio3)).reset
    op4 := (y.op4.setFrequency (freq * y.ratio4)).reset
    prevSample1 := 0
    noteActive := true
    envelope := y.envelope.noteOn }

/-- FMSynth::noteOff(). -/
def FMSynth.noteOff (y : FMSynth) : FMSynth :=
  { y with noteActive := false, envelope := y.envelope.noteOff }

/-- FMSynth::isActive(). -/
def FMSynth.isActive (y : FMSynth) : Bool :=
  y.envelope.isActive

/-- FMSynth::setRatio2(r) (with the live-retune of op2 while a note is on). -/
def FMSynth.setRatio2 (y : FMSynth) (r : ℝ) : FMSynth :=
  if y.noteActive then
    { y with ratio2 := r, op2 := y.op2.setFrequency (y.currentFrequency * r) }
  else
    { y with ratio2 := r }

/-- FMSynth::setIndex2(i). -/
def FMSynth.setIndex2 (y : FMSynth) (i : ℝ) : FMSynth :=
  { y with index2 := i }

/-- FMSynth::setIndex3(i). -/
def FMSynth.setIndex3 (y : FMSynth) (i : ℝ) : FMSynth :=
  { y with index3 := i }

/-- FMSynth::setIndex4(i). -/
def FMSynth.setIndex4 (y : FMSynth) (i : ℝ) : FMSynth :=
  { y with index4 := i }

/-- FMSynth::setAlgorithm(alg). -/
def FMSynth.setAlgorithm (y : FMSynth) (alg : ℤ) : FMSynth :=
  { y with algorithm := alg }

/-- FMSynth::setAttack / setDecay / setSustain / setRelease delegate to the
envelope. -/
def FMSynth.setAttack (y : FMSynth) (t : ℝ) : FMSynth :=
  { y with envelope := y.envelope.setAttack t }

/-- FMSynth::setDecay(t). -/
def FMSynth.setDecay (y : FMSynth) (t : ℝ) : FMSynth :=
  { y with envelope := y.envelope.setDecay t }

/-- FMSynth::setSustain(l). -/
def FMSynth.setSustain (y : FMSynth) (l : ℝ) : FMSynth :=
  { y with envelope := y.envelope.setSustain l }

/-- FMSynth::setRelease(t). -/
def FMSynth.setRelease (y : FMSynth) (t : ℝ) : FMSynth :=
  { y with envelope := y.envelope.setRelease t }

/-- C8 (confirmed): when the envelope is inactive, FMSynth::process() returns
0 and the voice state (oscillator phases, prevSample1, everything) is left
exactly unchanged. -/
theorem C8_inactive_process_noop (y : FMSynth) (s : ℝ → ℝ)
    (h : y.envelope.isActive = false) :
    y.process s = (0, y) := by
  rw [FMSynth.process, h]
  rfl

/-- Witness for C8: a freshly constructed voice (envelope idle). -/
theorem C8_witness :
    (mkFMSynth 440 SAMPLE_RATE).envelope.isActive = false ∧
      (mkFMSynth 440 SAMPLE_RATE).process Real.sin = (0, mkFMSynth 440 SAMPLE_RATE) := by
  have h : (mkFMSynth 440 SAMPLE_RATE).envelope.isActive = false := by
    simp [mkFMSynth, mkADSREnvelope, ADSREnvelope.updateIncrements, ADSREnvelope.isActive]
  exact ⟨h, C8_inactive_process_noop (mkFMSynth 440 SAMPLE_RATE) Real.sin h⟩

/-- C9 (confirmed): for any algorithm value outside the six enumerated routing
algorithms, FMSynth::process() returns sample 0 and performs no operator
routing: all four oscillators and the feedback history are untouched. -/
theorem C9_invalid_algorithm_silence (y : FMSynth) (s : ℝ → ℝ)
    (h0 : y.algorithm ≠ ALG_STACK) (h1 : y.algorithm ≠ ALG_TWIN)
    (h2 : y.algorithm ≠ ALG_BRANCH) (h3 : y.algorithm ≠ ALG_PARALLEL)
    (h4 : y.algorithm ≠ ALG_DUAL_CARRIER) (h5 : y.algorithm ≠ ALG_TRIPLE) :
    (y.process s).1 = 0 ∧
      (y.process s).2.op1 = y.op1 ∧ (y.process s).2.op2 = y.op2 ∧
      (y.process s).2.op3 = y.op3 ∧ (y.process s).2.op4 = y.op4 ∧
      (y.process s).2.prevSample1 = y.prevSample1 := by
  rw [FMSynth.process]
  by_cases hact : y.envelope.isActive
  · simp only [hact, Bool.not_true, Bool.false_eq_true, if_false,
      if_neg h0, if_neg h1, if_neg h2, if_neg h3, if_neg h4, if_neg h5]
    simp
  · simp only [Bool.not_eq_true] at hact
    simp only [hact, Bool.not_false, if_true]
    simp

/-- Witness for C9: algorithm value 9 on an idle voice. -/
theorem C9_witness :
    ((mkFMSynth 440 SAMPLE_RATE).setAlgorithm 9).algorithm ≠ ALG_STACK ∧
      (((mkFMSynth 440 SAMPLE_RATE).setAlgorithm 9).process Real.sin).1 = 0 := by
  have h0 : ((mkFMSynth 440 SAMPLE_RATE).setAlgorithm 9).algorithm ≠ ALG_STACK := by
    simp [mkFMSynth, FMSynth.setAlgorithm, ALG_STACK]
  refine ⟨h0, ?_⟩
  refine (C9_invalid_algorithm_silence _ Real.sin h0 ?_ ?_ ?_ ?_ ?_).1 <;>
    simp [mkFMSynth, FMSynth.setAlgorithm, ALG_TWIN, ALG_BRANCH, ALG_PARALLEL,
      ALG_DUAL_CARRIER, ALG_TRIPLE]

/-- C10 (confirmed): with an active envelope and an invalid algorithm value,
process() returns sample 0 and the only state change is that the envelope has
advanced by one sample (envelope.process() runs before the dispatch); the
oscillators and prevSample1 are untouched, so the silent call still consumes
envelope time. -/
theorem C10_invalid_algorithm_advances_envelope (y : FMSynth) (s : ℝ → ℝ)
    (hact : y.envelope.isActive = true)
    (h0 : y.algorithm ≠ ALG_STACK) (h1 : y.algorithm ≠ ALG_TWIN)
    (h2 : y.algorithm ≠ ALG_BRANCH) (h3 : y.algorithm ≠ ALG_PARALLEL)
    (h4 : y.algorithm ≠ ALG_DUAL_CARRIER) (h5 : y.algorithm ≠ ALG_TRIPLE) :
    y.process s = (0, { y with envelope := y.envelope.process.2 }) := by
  rw [FMSynth.process]
  simp only [hact, Bool.not_true, Bool.false_eq_true, if_false,
    if_neg h0, if_neg h1, if_neg h2, if_neg h3, if_neg h4, if_neg h5]

/-- Witness for C10: algorithm value 7 on a voice whose note is on. -/
theorem C10_witness :
    (((mkFMSynth 440 SAMPLE_RATE).setAlgorithm 7).noteOn 440).envelope.isActive = true ∧
      (((mkFMSynth 440 SAMPLE_RATE).setAlgorithm 7).noteOn 440).process Real.sin
        = (0, { ((mkFMSynth 440 SAMPLE_RATE).setAlgorithm 7).noteOn 440 with
                 envelope :=
                   (((mkFMSynth 440 SAMPLE_RATE).setAlgorithm 7).noteOn 440).envelope.process.2 }) := by
  have hact :
      (((mkFMSynth 440 SAMPLE_RATE).setAlgorithm 7).noteOn 440).envelope.isActive = true := by
    simp [mkFMSynth, mkADSREnvelope, ADSREnvelope.updateIncrements, FMSynth.setAlgorithm,
      FMSynth.noteOn, ADSREnvelope.noteOn, ADSREnvelope.isActive]
  refine ⟨hact, ?_⟩
  refine C10_invalid_algorithm_advances_envelope _ Real.sin hact ?_ ?_ ?_ ?_ ?_ ?_ <;>
    simp [mkFMSynth, FMSynth.setAlgorithm, FMSynth.noteOn, ALG_STACK, ALG_TWIN,
      ALG_BRANCH, ALG_PARALLEL, ALG_DUAL_CARRIER, ALG_TRIPLE]

/-- C1 (corrected): with all four modulation indices 0 and an active
envelope, one FMSynth::process() call returns amplitude * envelopeLevel *
s(carrierPhase) for the single-carrier algorithms Stack, Twin, Branch and
Parallel; for the multi-carrier algorithms the output is instead the
attenuated sum of the carriers' pure tones: Dual returns
(s(phase1) + s(phase3) * 0.7) * amplitude * envelopeLevel * 0.7 and Triple
returns (s(phase1) + s(phase2) * 0.6 + s(phase3) * 0.4) * amplitude *
envelopeLevel * 0.5, so the claim's single-pure-tone formula fails there. -/
theorem C1_zero_index_collapse (y : FMSynth) (s : ℝ → ℝ)
    (hi1 : y.index1 = 0) (hi2 : y.index2 = 0) (hi3 : y.index3 = 0)
    (hi4 : y.index4 = 0) (hact : y.envelope.isActive = true) :
    (y.algorithm = ALG_STACK ∨ y.algorithm = ALG_TWIN ∨ y.algorithm = ALG_BRANCH ∨
        y.algorithm = ALG_PARALLEL →
      (y.process s).1 = y.amplitude * y.envelope.process.1 * s y.op1.phase) ∧
      (y.algorithm = ALG_DUAL_CARRIER →
        (y.process s).1
          = (s y.op1.phase + s y.op3.phase * 0.7)
            * y.amplitude * y.envelope.process.1 * 0.7) ∧
      (y.algorithm = ALG_TRIPLE →
        (y.process s).1
          = (s y.op1.phase + s y.op2.phase * 0.6 + s y.op3.phase * 0.4)
            * y.amplitude * y.envelope.process.1 * 0.5) := by
  refine ⟨?_, ?_, ?_⟩
  · rintro (halg | halg | halg | halg) <;>
      rw [FMSynth.process] <;>
      simp only [hact, Bool.not_true, Bool.false_eq_true, if_false, halg,
        ALG_STACK, ALG_TWIN, ALG_BRANCH, ALG_PARALLEL] <;>
      norm_num [Oscillator.process, hi1, hi2, hi3, hi4] <;>
      ring
  · intro halg
    rw [FMSynth.process]
    simp only [hact, Bool.not_true, Bool.false_eq_true, if_false, halg,
      ALG_STACK, ALG_TWIN, ALG_BRANCH, ALG_PARALLEL, ALG_DUAL_CARRIER]
    norm_num [Oscillator.process, hi1, hi2, hi3, hi4]
  · intro halg
    rw [FMSynth.process]
    simp only [hact, Bool.not_true, Bool.false_eq_true, if_false, halg,
      ALG_STACK, ALG_TWIN, ALG_BRANCH, ALG_PARALLEL, ALG_DUAL_CARRIER, ALG_TRIPLE]
    norm_num [Oscillator.process, hi1, hi2, hi3, hi4]

/-- An explicit sustaining envelope used for concrete voice states. -/
def cSustainEnv : ADSREnvelope :=
  { attackTime := 0.01, decayTime := 0.1, sustainLevel := 0.7, releaseTime := 0.3,
    state := ENV_SUSTAIN, currentLevel := 0.7, sampleRate := 44100,
    attackIncrement := 0.01, decayIncrement := 0.01, releaseIncrement := 0,
    releaseStartLevel := 0 }

/-- A concrete Dual-algorithm voice state with all indices 0, carrier phases
at pi/2. -/
def cDual : FMSynth :=
  { op1 := { phase := Real.pi / 2, phaseIncrement := 0.1, frequency := 440, sampleRate := 44100 }
    op2 := { phase := 0, phaseIncrement := 0.1, frequency := 880, sampleRate := 44100 }
    op3 := { phase := Real.pi / 2, phaseIncrement := 0.1, frequency := 1320, sampleRate := 44100 }
    op4 := { phase := 0, phaseIncrement := 0.1, frequency := 1760, sampleRate := 44100 }
    envelope := cSustainEnv
    ratio1 := 1, ratio2 := 2, ratio3 := 3, ratio4 := 4
    index1 := 0, index2 := 0, index3 := 0, index4 := 0
    prevSample1 := 0
    algorithm := ALG_DUAL_CARRIER
    amplitude := 0.3
    noteActive := true
    currentFrequency := 440
    sampleRate := 44100 }

/-- Counterexample to C1 as stated: the Dual algorithm with all indices 0 and
an active envelope does not return amplitude * envelopeLevel * sin(phase1):
at carrier phases pi/2 the voice returns (1 + 0.7) * 0.3 * 0.7 * 0.7 = 0.2499
while the claimed formula gives 0.3 * 0.7 * 1 = 0.21. -/
theorem C1_counterexample :
    cDual.index1 = 0 ∧ cDual.index2 = 0 ∧ cDual.index3 = 0 ∧ cDual.index4 = 0 ∧
      cDual.envelope.isActive = true ∧ cDual.algorithm = ALG_DUAL_CARRIER ∧
      (cDual.process Real.sin).1
        ≠ cDual.amplitude * cDual.envelope.process.1 * Real.sin cDual.op1.phase := by
  refine ⟨rfl, rfl, rfl, rfl, rfl, rfl, ?_⟩
  rw [FMSynth.process]
  norm_num [cDual, cSustainEnv, ADSREnvelope.isActive, ADSREnvelope.process,
    Oscillator.process, ALG_STACK, ALG_TWIN, ALG_BRANCH, ALG_PARALLEL,
    ALG_DUAL_CARRIER, Real.sin_pi_div_two, Real.sin_zero]
  rw [if_neg (show ¬ (ENV_SUSTAIN = ENV_IDLE) by decide)]
  norm_num

/-- A concrete Stack-algorithm voice state with all indices 0. -/
def cStack : FMSynth :=
  { cDual with algorithm := ALG_STACK }

/-- Witness for C1: the Stack case at the concrete voice cStack. -/
theorem C1_witness :
    cStack.index1 = 0 ∧ cStack.index2 = 0 ∧ cStack.index3 = 0 ∧ cStack.index4 = 0 ∧
      cStack.envelope.isActive = true ∧
      (cStack.process Real.sin).1
        = cStack.amplitude * cStack.envelope.process.1 * Real.sin cStack.op1.phase :=
  ⟨rfl, rfl, rfl, rfl, rfl,
    (C1_zero_index_collapse cStack Real.sin rfl rfl rfl rfl rfl).1 (Or.inl rfl)⟩

/-- n successive FMSynth::process() calls (state part). -/
def FMSynth.iterate (y : FMSynth) (s : ℝ → ℝ) : ℕ → FMSynth
  | 0 => y
  | n + 1 => ((y.iterate s n).process s).2

/-- The sample produced by the (n+1)-st FMSynth::process() call. -/
def FMSynth.sampleAt (y : FMSynth) (s : ℝ → ℝ) (n : ℕ) : ℝ :=
  ((y.iterate s n).process s).1

/-- The closed-form per-sample phase recurrence of one oscillator: starts at
0, advances by delta each sample, wrapping at TWO_PI like
Oscillator::process. -/
def phaseSeq (delta : ℝ) : ℕ → ℝ
  | 0 => 0
  | n + 1 =>
      let p := phaseSeq delta n + delta
      if p ≥ TWO_PI then p - TWO_PI else p

/-- The C2 scenario voice: fresh voice at 440 Hz, ratio2 = 2, index2 = 3,
Stack algorithm, attack = decay = release = 0 (clamped to 1 ms by the
setters), sustain = 1, then noteOn(440). -/
def c2Voice : FMSynth :=
  (((((((((mkFMSynth 440 SAMPLE_RATE).setRatio2 2).setIndex2
    3).setAlgorithm ALG_STACK).setAttack 0).setDecay 0).setSustain
    1).setRelease 0).noteOn 440)

/-- The amended C2 scenario: as c2Voice but with index3 and index4 also set
to 0 (their fresh-voice defaults 1.5 and 1.0 otherwise modulate operators 2
and 3 inside the Stack chain). -/
def c2VoiceZ : FMSynth :=
  (((((((((((mkFMSynth 440 SAMPLE_RATE).setRatio2 2).setIndex2
    3).setIndex3 0).setIndex4 0).setAlgorithm ALG_STACK).setAttack
    0).setDecay 0).setSustain 1).setRelease 0).noteOn 440)

/-- Per-sample phase increment of op1 in the C2 scenario. -/
def c2d1 : ℝ := TWO_PI * (440 * 1) / 44100

/-- Per-sample phase increment of op2 in the C2 scenario. -/
def c2d2 : ℝ := TWO_PI * (440 * 2) / 44100

/-- Per-sample phase increment of op3 in the C2 scenario. -/
def c2d3 : ℝ := TWO_PI * (440 * 3) / 44100

/-- Per-sample phase increment of op4 in the C2 scenario. -/
def c2d4 : ℝ := TWO_PI * (440 * 4) / 44100

/-- Attack increment of the C2 scenario envelope: attack clamped to 1 ms. -/
def c2aInc : ℝ := 1 / (0.001 * 44100)

/-- The C2 scenario envelope right after noteOn. -/
def c2Env0 : ADSREnvelope :=
  { attackTime := 0.001, decayTime := 0.001, sustainLevel := 1, releaseTime := 0.001,
    state := ENV_ATTACK, currentLevel := 0, sampleRate := 44100,
    attackIncrement := c2aInc, decayIncrement := 0, releaseIncrement := 0,
    releaseStartLevel := 0 }

/-- The C2 scenario voice, as an explicit record. -/
def c2StateU : FMSynth :=
  { op1 := { phase := 0, phaseIncrement := c2d1, frequency := 440 * 1, sampleRate := 44100 }
    op2 := { phase := 0, phaseIncrement := c2d2, frequency := 440 * 2, sampleRate := 44100 }
    op3 := { phase := 0, phaseIncrement := c2d3, frequency := 440 * 3, sampleRate := 44100 }
    op4 := { phase := 0, phaseIncrement := c2d4, frequency := 440 * 4, sampleRate := 44100 }
    envelope := c2Env0
    ratio1 := 1, ratio2 := 2, ratio3 := 3, ratio4 := 4
    index1 := 0, index2 := 3, index3 := 1.5, index4 := 1
    prevSample1 := 0
    algorithm := ALG_STACK
    amplitude := 0.3
    noteActive := true
    currentFrequency := 440
    sampleRate := 44100 }

/-- The amended C2 scenario voice, as an explicit record. -/
def c2StateZ : FMSynth :=
  { c2StateU with index3 := 0, index4 := 0 }

lemma c2Voice_eq : c2Voice = c2StateU := by
  simp only [c2Voice, c2StateU, c2Env0, c2d1, c2d2, c2d3, c2d4, c2aInc,
    mkFMSynth, mkOscillator, mkADSREnvelope, SAMPLE_RATE,
    FMSynth.setRatio2, FMSynth.setIndex2, FMSynth.setAlgorithm,
    FMSynth.setAttack, FMSynth.setDecay, FMSynth.setSustain, FMSynth.setRelease,
    FMSynth.noteOn, Oscillator.setFrequency, Oscillator.reset,
    ADSREnvelope.setAttack, ADSREnvelope.setDecay, ADSREnvelope.setSustain,
    ADSREnvelope.setRelease, ADSREnvelope.updateIncrements, ADSREnvelope.noteOn,
    Bool.false_eq_true, if_false]
  norm_num [max_def, min_def]

lemma c2VoiceZ_eq : c2VoiceZ = c2StateZ := by
  simp only [c2VoiceZ, c2StateZ, c2StateU, c2Env0, c2d1, c2d2, c2d3, c2d4, c2aInc,
    mkFMSynth, mkOscillator, mkADSREnvelope, SAMPLE_RATE,
    FMSynth.setRatio2, FMSynth.setIndex2, FMSynth.setIndex3, FMSynth.setIndex4,
    FMSynth.setAlgorithm,
    FMSynth.setAttack, FMSynth.setDecay, FMSynth.setSustain, FMSynth.setRelease,
    FMSynth.noteOn, Oscillator.setFrequency, Oscillator.reset,
    ADSREnvelope.setAttack, ADSREnvelope.setDecay, ADSREnvelope.setSustain,
    ADSREnvelope.setRelease, ADSREnvelope.updateIncrements, ADSREnvelope.noteOn,
    Bool.false_eq_true, if_false]
  norm_num [max_def, min_def]

lemma c2aInc_pos : 0 < c2aInc := by
  norm_num [c2aInc]

/-- The C2 envelope run: during the clamped 1 ms attack the level is
n * c2aInc, afterwards it is held at 1 in ENV_DECAY and then ENV_SUSTAIN
(decayIncrement is 0 and sustainLevel is 1). -/
lemma c2Env_run (n : ℕ) :
    (c2Env0.iterate n = { c2Env0 with currentLevel := (n : ℝ) * c2aInc } ∧
        (n : ℝ) * c2aInc < 1) ∨
      ((c2Env0.iterate n = { c2Env0 with currentLevel := 1, state := ENV_DECAY } ∨
          c2Env0.iterate n = { c2Env0 with currentLevel := 1, state := ENV_SUSTAIN }) ∧
        1 ≤ (n : ℝ) * c2aInc) := by
  induction n with
  | zero =>
    left
    constructor
    · simp [ADSREnvelope.iterate, c2Env0]
    · norm_num
  | succ n ih =>
    rw [ADSREnvelope.iterate]
    rcases ih with ⟨heq, hlt⟩ | ⟨heq | heq, hge⟩
    · rw [heq]
      by_cases hc : (n : ℝ) * c2aInc + c2aInc ≥ 1
      · right
        refine ⟨Or.inl ?_, ?_⟩
        · simp only [ADSREnvelope.process, c2Env0]
          rw [if_pos hc]
        · push_cast
          linarith
      · left
        refine ⟨?_, ?_⟩
        · simp only [ADSREnvelope.process, c2Env0]
          rw [if_neg hc]
          push_cast
          ring_nf
        · push_neg at hc
          push_cast
          linarith
    · rw [heq]
      right
      refine ⟨Or.inr ?_, ?_⟩
      · simp only [ADSREnvelope.process, c2Env0]
        norm_num
      · push_cast
        have := c2aInc_pos
        linarith
    · rw [heq]
      right
      refine ⟨Or.inr ?_, ?_⟩
      · simp only [ADSREnvelope.process, c2Env0]
      · push_cast
        have := c2aInc_pos
        linarith

/-- The C2 envelope is active at every sample. -/
lemma c2Env_active (n : ℕ) : (c2Env0.iterate n).isActive = true := by
  rcases c2Env_run n with ⟨heq, _⟩ | ⟨heq | heq, _⟩ <;> rw [heq] <;> rfl

/-- The level returned by the (n+1)-st process() call of the C2 envelope. -/
lemma c2Env_out (n : ℕ) :
    (c2Env0.iterate n).process.1 = min (((n : ℝ) + 1) * c2aInc) 1 := by
  rcases c2Env_run n with ⟨heq, hlt⟩ | ⟨heq | heq, hge⟩
  · rw [heq]
    simp only [ADSREnvelope.process, c2Env0]
    by_cases hc : (n : ℝ) * c2aInc + c2aInc ≥ 1
    · rw [if_pos hc]
      rw [eq_comm, min_eq_right]
      nlinarith
    · rw [if_neg hc]
      push_neg at hc
      rw [eq_comm, min_eq_left]
      · ring
      · nlinarith
  · rw [heq]
    simp only [ADSREnvelope.process, c2Env0]
    norm_num
    have := c2aInc_pos
    nlinarith
  · rw [heq]
    simp only [ADSREnvelope.process, c2Env0]
    norm_num
    have := c2aInc_pos
    nlinarith

/-- Feedback history of the amended C2 voice after n samples. -/
def c2Prev (s : ℝ → ℝ) : ℕ → ℝ
  | 0 => 0
  | n + 1 => s (phaseSeq c2d1 n + 3 * s (phaseSeq c2d2 n))

/-- State evolution of the amended C2 voice: the four oscillator phases follow
the closed-form recurrence, the envelope follows its own iteration, and all
parameters stay fixed. -/
lemma c2Z_iterate (s : ℝ → ℝ) (n : ℕ) :
    c2VoiceZ.iterate s n =
      { op1 := { phase := phaseSeq c2d1 n, phaseIncrement := c2d1,
                 frequency := 440 * 1, sampleRate := 44100 }
        op2 := { phase := phaseSeq c2d2 n, phaseIncrement := c2d2,
                 frequency := 440 * 2, sampleRate := 44100 }
        op3 := { phase := phaseSeq c2d3 n, phaseIncrement := c2d3,
                 frequency := 440 * 3, sampleRate := 44100 }
        op4 := { phase := phaseSeq c2d4 n, phaseIncrement := c2d4,
                 frequency := 440 * 4, sampleRate := 44100 }
        envelope := c2Env0.iterate n
        ratio1 := 1, ratio2 := 2, ratio3 := 3, ratio4 := 4
        index1 := 0, index2 := 3, index3 := 0, index4 := 0
        prevSample1 := c2Prev s n
        algorithm := ALG_STACK
        amplitude := 0.3
        noteActive := true
        currentFrequency := 440
        sampleRate := 44100 } := by
  induction n with
  | zero =>
    rw [FMSynth.iterate, c2VoiceZ_eq]
    rfl
  | succ n ih =>
    rw [FMSynth.iterate, ih, FMSynth.process]
    simp only [c2Env_active n, Bool.not_true, Bool.false_eq_true, if_false,
      eq_self_iff_true, if_true, Oscillator.process, zero_mul, add_zero,
      ADSREnvelope.iterate, phaseSeq, c2Prev]

/-- C2 (corrected): in the amended scenario (index3 and index4 zeroed as
well), every output sample follows the closed-form two-operator FM formula
multiplied by the amplitude and by the clamped-attack envelope level
min((n+1)/(0.001*sr), 1); and the very first sample is 0. -/
theorem C2_closed_form_samples (s : ℝ → ℝ) (n : ℕ) :
    c2VoiceZ.sampleAt s n
        = 0.3 * min (((n : ℝ) + 1) * c2aInc) 1
          * s (phaseSeq c2d1 n + 3 * s (phaseSeq c2d2 n)) ∧
      c2VoiceZ.sampleAt Real.sin 0 = 0 := by
  have hmain : ∀ (s : ℝ → ℝ) (n : ℕ),
      c2VoiceZ.sampleAt s n
        = 0.3 * min (((n : ℝ) + 1) * c2aInc) 1
          * s (phaseSeq c2d1 n + 3 * s (phaseSeq c2d2 n)) := by
    intro s n
    rw [FMSynth.sampleAt, c2Z_iterate s n, FMSynth.process]
    simp only [c2Env_active n, Bool.not_true, Bool.false_eq_true, if_false,
      eq_self_iff_true, if_true, Oscillator.process, zero_mul, add_zero]
    rw [c2Env_out n]
    ring
  refine ⟨hmain s n, ?_⟩
  rw [hmain Real.sin 0]
  norm_num [phaseSeq, Real.sin_zero]

/-- Witness for C2: the closed form evaluated at the first sample with the
real sine gives 0. -/
theorem C2_witness :
    c2VoiceZ.sampleAt Real.sin 0
        = 0.3 * min (((0 : ℝ) + 1) * c2aInc) 1
          * Real.sin (phaseSeq c2d1 0 + 3 * Real.sin (phaseSeq c2d2 0)) ∧
      c2VoiceZ.sampleAt Real.sin 0 = 0 := by
  have h := C2_closed_form_samples Real.sin 0
  have h0 : ((0 : ℕ) : ℝ) = (0 : ℝ) := by norm_num
  refine ⟨?_, h.2⟩
  rw [← h0]
  exact h.1

lemma c2d1_lt : c2d1 < TWO_PI := by
  rw [c2d1, TWO_PI]
  nlinarith [Real.pi_pos]

lemma c2d2_lt : c2d2 < TWO_PI := by
  rw [c2d2, TWO_PI]
  nlinarith [Real.pi_pos]

lemma c2d3_lt : c2d3 < TWO_PI := by
  rw [c2d3, TWO_PI]
  nlinarith [Real.pi_pos]

lemma c2d4_lt : c2d4 < TWO_PI := by
  rw [c2d4, TWO_PI]
  nlinarith [Real.pi_pos]

lemma phaseSeq_one (d : ℝ) (h : d < TWO_PI) : phaseSeq d 1 = d := by
  have heq : phaseSeq d 1
      = if 0 + d ≥ TWO_PI then 0 + d - TWO_PI else 0 + d := rfl
  rw [heq, if_neg (by rw [zero_add]; exact not_le.2 h), zero_add]

/-- Feedback history of the unamended C2 voice after n samples. -/
def c2PrevU (s : ℝ → ℝ) : ℕ → ℝ
  | 0 => 0
  | n + 1 =>
      s (phaseSeq c2d1 n
        + 3 * s (phaseSeq c2d2 n
          + 1.5 * s (phaseSeq c2d3 n + s (phaseSeq c2d4 n))))

/-- State evolution of the unamended C2 voice (index3 = 1.5, index4 = 1). -/
lemma c2U_iterate (s : ℝ → ℝ) (n : ℕ) :
    c2Voice.iterate s n =
      { op1 := { phase := phaseSeq c2d1 n, phaseIncrement := c2d1,
                 frequency := 440 * 1, sampleRate := 44100 }
        op2 := { phase := phaseSeq c2d2 n, phaseIncrement := c2d2,
                 frequency := 440 * 2, sampleRate := 44100 }
        op3 := { phase := phaseSeq c2d3 n, phaseIncrement := c2d3,
                 frequency := 440 * 3, sampleRate := 44100 }
        op4 := { phase := phaseSeq c2d4 n, phaseIncrement := c2d4,
                 frequency := 440 * 4, sampleRate := 44100 }
        envelope := c2Env0.iterate n
        ratio1 := 1, ratio2 := 2, ratio3 := 3, ratio4 := 4
        index1 := 0, index2 := 3, index3 := 1.5, index4 := 1
        prevSample1 := c2PrevU s n
        algorithm := ALG_STACK
        amplitude := 0.3
        noteActive := true
        currentFrequency := 440
        sampleRate := 44100 } := by
  induction n with
  | zero =>
    rw [FMSynth.iterate, c2Voice_eq]
    rfl
  | succ n ih =>
    rw [FMSynth.iterate, ih, FMSynth.process]
    simp only [c2Env_active n, Bool.not_true, Bool.false_eq_true, if_false,
      eq_self_iff_true, if_true, Oscillator.process, zero_mul, add_zero, one_mul,
      ADSREnvelope.iterate, phaseSeq, c2PrevU]

/-- Sample formula for the unamended C2 voice: the default index3 = 1.5 and
index4 = 1 stay in the modulation chain. -/
lemma c2U_sample (s : ℝ → ℝ) (n : ℕ) :
    c2Voice.sampleAt s n
      = 0.3 * min (((n : ℝ) + 1) * c2aInc) 1
        * s (phaseSeq c2d1 n
          + 3 * s (phaseSeq c2d2 n
            + 1.5 * s (phaseSeq c2d3 n + s (phaseSeq c2d4 n)))) := by
  rw [FMSynth.sampleAt, c2U_iterate s n, FMSynth.process]
  simp only [c2Env_active n, Bool.not_true, Bool.false_eq_true, if_false,
    eq_self_iff_true, if_true, Oscillator.process, zero_mul, add_zero, one_mul]
  rw [c2Env_out n]
  ring

/-- Counterexample to C2 as stated: already the second output sample (sample
index 1 < 100) of the scenario voice differs from the claimed closed form
amplitude * s(phase_carrier + 3 * s(phase_modulator)), exhibited with the
identity function in place of std::sin: the code's sample carries the
envelope factor 2/(0.001*44100) and the default index3/index4 modulation,
the claimed formula does not. -/
theorem C2_counterexample :
    (1 : ℕ) < 100 ∧
      c2Voice.sampleAt (fun x => x) 1
        ≠ 0.3 * (phaseSeq c2d1 1 + 3 * phaseSeq c2d2 1) := by
  refine ⟨by norm_num, ?_⟩
  rw [c2U_sample (fun x => x) 1,
    phaseSeq_one c2d1 c2d1_lt, phaseSeq_one c2d2 c2d2_lt,
    phaseSeq_one c2d3 c2d3_lt, phaseSeq_one c2d4 c2d4_lt]
  intro h
  rw [c2d1, c2d2, c2d3, c2d4, TWO_PI, c2aInc] at h
  norm_num [min_def] at h
  nlinarith [Real.pi_pos, h]

/-- Struct Voice of src/fm_synth_gui.cpp: a synth and its assigned note
(-1 when unassigned). -/
structure Voice where
  synth : FMSynth
  note : ℤ

/-- A pool slot as initialised at startup: note -1, synth FMSynth(440.0,
SAMPLE_RATE). -/
def initVoice : Voice :=
  { synth := mkFMSynth 440 SAMPLE_RATE, note := -1 }

/-- The global voices[NUM_VOICES] array at startup. -/
def initPool : List Voice :=
  List.replicate NUM_VOICES initVoice

/-- First index satisfying p, scanning left to right (the C++ for-loop with
early return). -/
def firstIdx {α : Type} (p : α → Bool) : List α → Option ℕ
  | [] => none
  | a :: as => if p a then some 0 else (firstIdx p as).map (fun i => i + 1)

/-- In-place update of the element at index i (no-op past the end). -/
def listModify {α : Type} (f : α → α) : ℕ → List α → List α
  | _, [] => []
  | 0, a :: as => f a :: as
  | i + 1, a :: as => a :: listModify f i as

/-- The first-loop predicate of findFreeVoice: unassigned slot with inactive
envelope. -/
def voiceFreeInactive (v : Voice) : Bool :=
  v.note == -1 && !(v.synth.isActive)

/-- The second-loop predicate of findFreeVoice: unassigned slot. -/
def voiceFree (v : Voice) : Bool :=
  v.note == -1

/-- findFreeVoice() of src/fm_synth_gui.cpp: first slot with note == -1 and
inactive envelope, else first slot with note == -1, else slot 0. -/
def findFreeVoice (pool : List Voice) : ℕ :=
  match firstIdx voiceFreeInactive pool with
  | some i => i
  | none =>
      match firstIdx voiceFree pool with
      | some i => i
      | none => 0

/-- findVoiceWithNote() (returns -1 in C++; modelled as Option). -/
def findVoiceWithNote (pool : List Voice) (note : ℤ) : Option ℕ :=
  firstIdx (fun v => v.note == note) pool

/-- voiceNoteOn(note, freq): no-op when the note is already assigned,
otherwise noteOn the selected slot's synth and assign the note. -/
def voiceNoteOn (pool : List Voice) (note : ℤ) (freq : ℝ) : List Voice :=
  match findVoiceWithNote pool note with
  | some _ => pool
  | none =>
      listModify (fun v => { synth := v.synth.noteOn freq, note := note })
        (findFreeVoice pool) pool

/-- voiceNoteOff(note): release the slot assigned to the note and clear the
assignment. -/
def voiceNoteOff (pool : List Voice) (note : ℤ) : List Voice :=
  match findVoiceWithNote pool note with
  | some i => listModify (fun v => { synth := v.synth.noteOff, note := -1 }) i pool
  | none => pool

/-- The note events driving the pool. -/
inductive PoolEvent where
  | evOn (note : ℤ) (freq : ℝ)
  | evOff (note : ℤ)

/-- Apply one pool event. -/
def applyPoolEvent (pool : List Voice) : PoolEvent → List Voice
  | PoolEvent.evOn note freq => voiceNoteOn pool note freq
  | PoolEvent.evOff note => voiceNoteOff pool note

/-- No two slots carry the same assigned note, apart from the unassigned
sentinel -1. -/
def NoDupNotes (pool : List Voice) : Prop :=
  pool.Pairwise (fun a b => a.note = b.note → a.note = -1)

lemma firstIdx_eq_none {α : Type} (p : α → Bool) (l : List α) :
    firstIdx p l = none ↔ ∀ a ∈ l, p a = false := by
  induction l with
  | nil => simp [firstIdx]
  | cons a as ih =>
    by_cases h : p a
    · simp [firstIdx, h]
    · simp only [firstIdx, if_neg h, Option.map_eq_none]
      simp only [Bool.not_eq_true] at h
      simp [ih, h]

lemma mem_listModify {α : Type} (f : α → α) (i : ℕ) (l : List α) (b : α)
    (hb : b ∈ listModify f i l) : b ∈ l ∨ ∃ a, a ∈ l ∧ b = f a := by
  induction l generalizing i with
  | nil => simp [listModify] at hb
  | cons a as ih =>
    cases i with
    | zero =>
      simp only [listModify, List.mem_cons] at hb
      rcases hb with hb | hb
      · exact Or.inr ⟨a, List.mem_cons_self a as, hb⟩
      · exact Or.inl (List.mem_cons_of_mem a hb)
    | succ i =>
      simp only [listModify, List.mem_cons] at hb
      rcases hb with hb | hb
      · exact Or.inl (hb ▸ List.mem_cons_self a as)
      · rcases ih i hb with h | ⟨c, hc, hbc⟩
        · exact Or.inl (List.mem_cons_of_mem a h)
        · exact Or.inr ⟨c, List.mem_cons_of_mem a hc, hbc⟩

lemma pairwise_listModify {α : Type} (R : α → α → Prop) (f : α → α) (i : ℕ)
    (l : List α) (h : l.Pairwise R)
    (hAll : ∀ a ∈ l, ∀ b ∈ l, R (f a) b ∧ R a (f b)) :
    (listModify f i l).Pairwise R := by
  induction l generalizing i with
  | nil => cases i <;> exact List.Pairwise.nil
  | cons a as ih =>
    rcases List.pairwise_cons.mp h with ⟨hhead, htail⟩
    cases i with
    | zero =>
      refine List.pairwise_cons.mpr ⟨?_, htail⟩
      intro b hb
      exact (hAll a (List.mem_cons_self a as) b (List.mem_cons_of_mem a hb)).1
    | succ i =>
      refine List.pairwise_cons.mpr ⟨?_, ?_⟩
      · intro b hb
        rcases mem_listModify f i as b hb with hmem | ⟨c, hc, hbc⟩
        · exact hhead b hmem
        · exact hbc ▸
            (hAll a (List.mem_cons_self a as) c (List.mem_cons_of_mem a hc)).2
      · exact ih i htail fun x hx y hy =>
          hAll x (List.mem_cons_of_mem a hx) y (List.mem_cons_of_mem a hy)

lemma noDupNotes_voiceNoteOn (pool : List Voice) (n : ℤ) (freq : ℝ)
    (h : NoDupNotes pool) : NoDupNotes (voiceNoteOn pool n freq) := by
  rw [voiceNoteOn]
  cases hfind : findVoiceWithNote pool n with
  | some i => exact h
  | none =>
    have hnone : ∀ v ∈ pool, (v.note == n) = false :=
      (firstIdx_eq_none _ pool).1 hfind
    apply pairwise_listModify _ _ _ _ h
    intro a ha b hb
    constructor
    · intro hEq
      exfalso
      have hb' : b.note ≠ n := by
        have := hnone b hb
        simpa using this
      exact hb' hEq.symm
    · intro hEq
      exfalso
      have ha' : a.note ≠ n := by
        have := hnone a ha
        simpa using this
      exact ha' hEq

lemma noDupNotes_voiceNoteOff (pool : List Voice) (n : ℤ)
    (h : NoDupNotes pool) : NoDupNotes (voiceNoteOff pool n) := by
  rw [voiceNoteOff]
  cases hfind : findVoiceWithNote pool n with
  | some i =>
    apply pairwise_listModify _ _ _ _ h
    intro a _ b _
    exact ⟨fun _ => rfl, fun hEq => hEq⟩
  | none => exact h

lemma noDupNotes_replicate (k : ℕ) : NoDupNotes (List.replicate k initVoice) := by
  induction k with
  | zero => exact List.Pairwise.nil
  | succ k ih =>
    rw [List.replicate_succ]
    exact List.Pairwise.cons (fun b _ _ => rfl) ih

/-- C6 (confirmed): every pool state reachable from startup by any sequence
of voiceNoteOn/voiceNoteOff events has pairwise-distinct assigned notes
(apart from the sentinel -1), and voiceNoteOn for a note that is currently
assigned to some slot returns the pool entirely unchanged: no synth noteOn,
no envelope retrigger. -/
theorem C6_pool_distinct_notes_no_retrigger (events : List PoolEvent) :
    NoDupNotes (events.foldl applyPoolEvent initPool) ∧
      ∀ (pool : List Voice) (n : ℤ) (freq : ℝ),
        (∃ v ∈ pool, v.note = n) → voiceNoteOn pool n freq = pool := by
  constructor
  · have hfold : ∀ (evs : List PoolEvent) (pool : List Voice), NoDupNotes pool →
        NoDupNotes (evs.foldl applyPoolEvent pool) := by
      intro evs
      induction evs with
      | nil => exact fun pool h => h
      | cons ev evs ih =>
        intro pool h
        rw [List.foldl_cons]
        apply ih
        cases ev with
        | evOn n f => exact noDupNotes_voiceNoteOn pool n f h
        | evOff n => exact noDupNotes_voiceNoteOff pool n h
    exact hfold events initPool (noDupNotes_replicate NUM_VOICES)
  · intro pool n freq ⟨v, hv, hvn⟩
    rw [voiceNoteOn]
    cases hfind : findVoiceWithNote pool n with
    | some i => rfl
    | none =>
      exfalso
      have := (firstIdx_eq_none _ pool).1 hfind v hv
      simp [hvn] at this

/-- Witness for C6: the empty event sequence, and the no-op on the initial
pool for the sentinel note it carries. -/
theorem C6_witness :
    NoDupNotes (([] : List PoolEvent).foldl applyPoolEvent initPool) ∧
      ((∃ v ∈ initPool, v.note = -1) ∧ voiceNoteOn initPool (-1) 440 = initPool) := by
  have h := C6_pool_distinct_notes_no_retrigger []
  have hex : ∃ v ∈ initPool, v.note = -1 := by
    refine ⟨initVoice, ?_, rfl⟩
    simp [initPool, NUM_VOICES]
  exact ⟨h.1, hex, h.2 initPool (-1) 440 hex⟩

lemma firstIdx_spec {α : Type} (p : α → Bool) (l : List α) (i : ℕ)
    (hi : i < l.length) (hp : p (l.get ⟨i, hi⟩) = true)
    (hmin : ∀ j (hj : j < l.length), j < i → p (l.get ⟨j, hj⟩) = false) :
    firstIdx p l = some i := by
  induction l generalizing i with
  | nil => exact absurd hi (Nat.not_lt_zero i)
  | cons a as ih =>
    cases i with
    | zero =>
      have : p a = true := hp
      simp [firstIdx, this]
    | succ i =>
      have ha : p a = false := hmin 0 (Nat.succ_pos _) (Nat.succ_pos _)
      rw [firstIdx, if_neg (by simp [ha])]
      have hi' : i < as.length := Nat.lt_of_succ_lt_succ hi
      have hp' : p (as.get ⟨i, hi'⟩) = true := hp
      have hmin' : ∀ j (hj : j < as.length), j < i → p (as.get ⟨j, hj⟩) = false :=
        fun j hj hlt =>
          hmin (j + 1) (Nat.succ_lt_succ hj) (Nat.succ_lt_succ hlt)
      rw [ih i hi' hp' hmin']
      rfl

lemma voiceFreeInactive_imp_free (v : Voice)
    (h : voiceFree v = false) : voiceFreeInactive v = false := by
  rw [voiceFreeInactive]
  rw [voiceFree] at h
  simp [h]

/-- C7 (confirmed): voiceNoteOn for an unassigned note selects the slot in
this exact preference order: (a) the lowest-index slot that is unassigned and
whose envelope is inactive; (b) otherwise the lowest-index unassigned slot;
(c) otherwise slot 0; the selected slot then receives the note and its
synth's noteOn(freq). -/
theorem C7_voice_selection_order (pool : List Voice) (n : ℤ) (f : ℝ) :
    (∀ i (hi : i < pool.length),
        voiceFreeInactive (pool.get ⟨i, hi⟩) = true →
        (∀ j (hj : j < pool.length), j < i →
          voiceFreeInactive (pool.get ⟨j, hj⟩) = false) →
        findFreeVoice pool = i) ∧
      ((∀ v ∈ pool, voiceFreeInactive v = false) →
        ∀ i (hi : i < pool.length),
          voiceFree (pool.get ⟨i, hi⟩) = true →
          (∀ j (hj : j < pool.length), j < i →
            voiceFree (pool.get ⟨j, hj⟩) = false) →
          findFreeVoice pool = i) ∧
      ((∀ v ∈ pool, voiceFree v = false) → findFreeVoice pool = 0) ∧
      (findVoiceWithNote pool n = none →
        voiceNoteOn pool n f
          = listModify (fun v => { synth := v.synth.noteOn f, note := n })
              (findFreeVoice pool) pool) := by
  refine ⟨?_, ?_, ?_, ?_⟩
  · intro i hi hp hmin
    rw [findFreeVoice, firstIdx_spec voiceFreeInactive pool i hi hp hmin]
  · intro hnone i hi hp hmin
    rw [findFreeVoice, (firstIdx_eq_none voiceFreeInactive pool).2 hnone,
      firstIdx_spec voiceFree pool i hi hp hmin]
  · intro hnone
    have hnone' : ∀ v ∈ pool, voiceFreeInactive v = false :=
      fun v hv => voiceFreeInactive_imp_free v (hnone v hv)
    rw [findFreeVoice, (firstIdx_eq_none voiceFreeInactive pool).2 hnone',
      (firstIdx_eq_none voiceFree pool).2 hnone]
  · intro hfind
    rw [voiceNoteOn, hfind]

/-- A slot holding note 60 with an idle voice. -/
def vAssigned : Voice :=
  { synth := mkFMSynth 440 SAMPLE_RATE, note := 60 }

/-- An unassigned slot whose voice is still sounding. -/
def vFreeActive : Voice :=
  { synth := (mkFMSynth 440 SAMPLE_RATE).noteOn 330, note := -1 }

/-- An unassigned slot with an idle voice. -/
def vFreeIdle : Voice :=
  { synth := mkFMSynth 440 SAMPLE_RATE, note := -1 }

/-- Witness for C7: all three selection tiers and the slot update, on
concrete pools. -/
theorem C7_witness :
    findFreeVoice [vAssigned, vFreeActive, vFreeIdle] = 2 ∧
      findFreeVoice [vAssigned, vFreeActive] = 1 ∧
      findFreeVoice [vAssigned] = 0 ∧
      voiceNoteOn [vAssigned] 61 440
        = listModify (fun v => { synth := v.synth.noteOn 440, note := 61 })
            (findFreeVoice [vAssigned]) [vAssigned] := by
  refine ⟨?_, ?_, ?_, ?_⟩
  · refine (C7_voice_selection_order [vAssigned, vFreeActive, vFreeIdle] 0 0).1
      2 (by norm_num) rfl ?_
    intro j hj hlt
    interval_cases j
    · rfl
    · rfl
  · refine (C7_voice_selection_order [vAssigned, vFreeActive] 0 0).2.1
      ?_ 1 (by norm_num) rfl ?_
    · intro v hv
      rcases List.mem_cons.mp hv with h | hv
      · rw [h]
        rfl
      · rcases List.mem_cons.mp hv with h | hv
        · rw [h]
          rfl
        · simp at hv
    · intro j hj hlt
      interval_cases j
      rfl
  · refine (C7_voice_selection_order [vAssigned] 0 0).2.2.1 ?_
    intro v hv
    rcases List.mem_cons.mp hv with h | hv
    · rw [h]
      rfl
    · simp at hv
  · exact (C7_voice_selection_order [vAssigned] 61 440).2.2.2 rfl

end FMSYNTH
